import Mathlib

/-!
Shallow embedding of the tempofs repository (src/http_file.py and
src/tempofs.py): a read-only virtual filesystem over remote HTTP
resources.  Pure Lean translations of the stream operations
(HTTPRangeFile) and of the filesystem bridge (webfile / tempofs),
followed by theorems settling the specification claims.

Bytes are modelled as Nat, byte strings as List Nat.  HTTP responses
are modelled explicitly (status plus content); the remote server is a
parameter, either arbitrary (a function from the requested range to a
response) or well-behaved (derived from a fixed resource content).
-/

namespace Tempofs

/-- An HTTP response: status code and body bytes. -/
structure Response where
  status : Nat
  content : List Nat
deriving DecidableEq, Repr

/-- `requests` raise_for_status raises for 4xx and 5xx status codes. -/
def Response.isHTTPError (r : Response) : Bool :=
  decide (400 ≤ r.status ∧ r.status < 600)

/-- The byte content of one remote resource, for the well-behaved
server model. -/
structure Resource where
  content : List Nat
deriving DecidableEq, Repr

/-- Resource size as reported by Content-Length (well-behaved server:
the real content length). -/
def Resource.size (r : Resource) : Nat := r.content.length

/-- A ranged GET `bytes=start-last` (inclusive) answered by a
well-behaved server: the bytes of the resource from `start` to
`min last (size - 1)`.  Positions reaching the server are nonnegative
(maintained by the stream's invariants). -/
def Resource.rangeBody (r : Resource) (start last : Int) : List Nat :=
  (r.content.drop start.toNat).take (last + 1 - start).toNat

/-- The well-behaved server: answers every ranged GET with 206 and
exactly the requested (clamped) bytes. -/
def Resource.server (r : Resource) : Int → Int → Response :=
  fun start last => ⟨206, r.rangeBody start last⟩

/-!  HTTPRangeFile (src/http_file.py).

The stream state is the cursor `pos` (Python keeps it as an int; it is
an `Int` here, nonnegativity is a proved invariant, not a typing
assumption).  `size` is the Content-Length from the construction-time
HEAD probe.  Each operation returns, besides its result, the list of
ranged requests `(start, last)` it issued, so that claims about "exactly
one request" / "no request" are statable. -/

/-- `HTTPRangeFile.readinto(b)`: translated from src/http_file.py lines
50-60.  Returns `Except status (bytesWritten, newPos)` together with
the ranged requests issued.  `raise_for_status` becomes the `.error`
branch. -/
def HTTPRangeFile.readinto (size : Nat) (srv : Int → Int → Response)
    (pos : Int) (bufLen : Nat) :
    Except Nat (List Nat × Int) × List (Int × Int) :=
  if (size : Int) ≤ pos then (.ok ([], pos), [])
  else
    let last : Int := min (pos + bufLen - 1) ((size : Int) - 1)
    let resp := srv pos last
    if resp.isHTTPError then (.error resp.status, [(pos, last)])
    else (.ok (resp.content, pos + resp.content.length), [(pos, last)])

/-- `HTTPRangeFile.read(size)`: translated from src/http_file.py lines
30-49.  `n < 0` reads to EOF in one request; `n = 0` returns empty with
no request; `n > 0` goes through `readinto` with a fresh zero-filled
buffer of length `n`, truncating the buffer to the count written when
the count is short. -/
def HTTPRangeFile.read (size : Nat) (srv : Int → Int → Response)
    (pos : Int) (n : Int) :
    Except Nat (List Nat × Int) × List (Int × Int) :=
  if n < 0 then
    if (size : Int) ≤ pos then (.ok ([], pos), [])
    else
      let last : Int := (size : Int) - 1
      let resp := srv pos last
      if resp.isHTTPError then (.error resp.status, [(pos, last)])
      else (.ok (resp.content, pos + resp.content.length), [(pos, last)])
  else if n = 0 then (.ok ([], pos), [])
  else
    match HTTPRangeFile.readinto size srv pos n.toNat with
    | (.error s, reqs) => (.error s, reqs)
    | (.ok (data, pos2), reqs) =>
      let written := data.length
      let buffer := data ++ (List.replicate n.toNat 0).drop written
      let out := if (written : Int) < n then buffer.take written else buffer
      (.ok (out, pos2), reqs)

/-- Seek errors: `ValueError("invalid whence")` and
`OSError("Negative seek position")`. -/
inductive SeekErr where
  | invalidWhence
  | negativeSeek
deriving DecidableEq, Repr

/-- `HTTPRangeFile.seek(offset, whence)`: translated from
src/http_file.py lines 62-74.  `whence` is the Python int
(SEEK_SET = 0, SEEK_CUR = 1, SEEK_END = 2).  Returns the new position
(which Python both stores into `self.pos` and returns). -/
def HTTPRangeFile.seek (size : Nat) (pos : Int) (offset : Int)
    (whence : Nat) : Except SeekErr Int :=
  if whence = 0 then
    if offset < 0 then .error .negativeSeek else .ok offset
  else if whence = 1 then
    if pos + offset < 0 then .error .negativeSeek else .ok (pos + offset)
  else if whence = 2 then
    if (size : Int) + offset < 0 then .error .negativeSeek
    else .ok ((size : Int) + offset)
  else .error .invalidWhence

/-- `HTTPRangeFile.tell()`: returns the cursor, no I/O. -/
def HTTPRangeFile.tell (pos : Int) : Int := pos

/-- `HTTPRangeFile.is_seekable` warnings (src/http_file.py lines
17-25) and `webfile.getfileinfo` warnings (src/tempofs.py lines
43-54). -/
inductive ARWarning where
  | unknownValue
  | notSeekable
deriving DecidableEq, Repr

/-- The Accept-Ranges values treated as known "unsupported" markers. -/
def knownNotSeekable : List String :=
  ["none", "false", "False", "0", "no", "No"]

/-- `HTTPRangeFile.is_seekable` (src/http_file.py lines 17-25):
seekable iff the Accept-Ranges header is exactly "bytes"; when not
seekable, an unknown-value warning for values outside the known list
(the absent header defaults to "none" here), then always a
not-seekable warning. -/
def HTTPRangeFile.is_seekable (acceptRanges : Option String) :
    Bool × List ARWarning :=
  if acceptRanges = some "bytes" then (true, [])
  else
    let ar := acceptRanges.getD "none"
    let w := if ar ∈ knownNotSeekable then [] else [ARWarning.unknownValue]
    (false, w ++ [ARWarning.notSeekable])

/-- One stream operation on an `HTTPRangeFile` (the operations that
touch the cursor). -/
inductive StreamOp where
  | readOp (n : Int)
  | seekOp (offset : Int) (whence : Nat)
deriving DecidableEq, Repr

/-- Cursor transition of one stream operation against the well-behaved
server for resource `r`.  A Python exception propagates before
`self.pos` is assigned, so a failing operation leaves the cursor
unchanged. -/
def stepPos (r : Resource) (pos : Int) : StreamOp → Int
  | .readOp n =>
    match (HTTPRangeFile.read r.size r.server pos n).1 with
    | .ok (_, p2) => p2
    | .error _ => pos
  | .seekOp offset whence =>
    match HTTPRangeFile.seek r.size pos offset whence with
    | .ok np => np
    | .error _ => pos

/-- Cursor after a sequence of stream operations, starting from the
initial position 0 set by `HTTPRangeFile.__init__`. -/
def runOps (r : Resource) (ops : List StreamOp) : Int :=
  ops.foldl (stepPos r) 0

/-!  The filesystem bridge (src/tempofs.py): `webfile` and `tempofs`.

The HEAD probe server is a parameter `hd : String → HeadResponse`
(url to response headers); the ranged GET server is
`srv : String → Int → Int → Response` (url, range start, range last —
both HEAD responses and GET responses may differ between calls in
reality, but each single bridge operation performs at most one of
each, so a per-call function is faithful). -/

/-- The headers the bridge reads off a HEAD probe response:
Content-Length (absent defaults to 0 via `headers.get`), Last-Modified
(already parsed to nanoseconds; `none` when the header is absent, in
which case the code uses 0), Accept-Ranges. -/
structure HeadResponse where
  contentLength : Nat
  lastModifiedNs : Option Int
  acceptRanges : Option String
deriving DecidableEq, Repr

/-- `pyfuse3.ROOT_INODE`. -/
def ROOT_INODE : Nat := 1

/-- One configured `webfile` entry (inode, name, url); the session is
per-entry in the source and carries no modelled state. -/
structure WebFile where
  inode : Nat
  name : String
  url : String
deriving DecidableEq, Repr

/-- `tempofs.__init__`: builds the file list from the configuration
mapping (insertion-ordered), inode `ROOT_INODE + 1 + index`. -/
def mkFiles (config : List (String × String)) : List WebFile :=
  config.enum.map fun p => ⟨ROOT_INODE + 1 + p.1, p.2.1, p.2.2⟩

/-- The subset of `pyfuse3.EntryAttributes` fields the source sets;
unset fields default to 0 as in pyfuse3. -/
structure EntryAttributes where
  st_ino : Nat
  st_mode : Nat
  st_size : Nat
  st_ctime_ns : Int
  st_atime_ns : Int
  st_mtime_ns : Int
  st_uid : Nat
  st_gid : Nat
deriving DecidableEq, Repr

/-- `stat.S_IFREG`. -/
def S_IFREG : Nat := 0o100000

/-- `stat.S_IFDIR`. -/
def S_IFDIR : Nat := 0o040000

/-- `webfile.getattr` (src/tempofs.py lines 26-41): HEAD-probes the
url; regular-file mode 0444; all three timestamps from Last-Modified
(0 when absent); size from Content-Length.  uid/gid are not set here
(they stay at the pyfuse3 default 0). -/
def webfileGetattr (hd : String → HeadResponse) (f : WebFile) :
    EntryAttributes :=
  let r := hd f.url
  let lm := r.lastModifiedNs.getD 0
  { st_ino := f.inode
    st_mode := S_IFREG ||| 0o444
    st_size := r.contentLength
    st_ctime_ns := lm
    st_atime_ns := lm
    st_mtime_ns := lm
    st_uid := 0
    st_gid := 0 }

/-- The fields of `pyfuse3.FileInfo` the source sets. -/
structure FileInfo where
  fh : Nat
  keep_cache : Bool
  nonseekable : Bool
deriving DecidableEq, Repr

/-- `webfile.getfileinfo` (src/tempofs.py lines 43-54): nonseekable
unless Accept-Ranges is exactly "bytes".  With the header absent,
Python's `headers.get(key, True)` sentinel `True` is compared against
the strings, so the unknown-value warning fires; every nonseekable
outcome then logs the nonseekable warning. -/
def webfileGetfileinfo (hd : String → HeadResponse) (f : WebFile) :
    FileInfo × List ARWarning :=
  match (hd f.url).acceptRanges with
  | some s =>
    if s = "bytes" then (⟨f.inode, true, false⟩, [])
    else
      let w := if s ∈ knownNotSeekable then [] else [ARWarning.unknownValue]
      (⟨f.inode, true, true⟩, w ++ [ARWarning.notSeekable])
  | none =>
    (⟨f.inode, true, true⟩, [ARWarning.unknownValue, ARWarning.notSeekable])

/-- `webfile.read(off, size)` (src/tempofs.py lines 59-62): one GET
with header `Range: bytes=off-(off+size-1)`, returning the response
body with no status check.  Also returns the request issued,
as (url, start, last). -/
def webfileRead (srv : String → Int → Int → Response) (f : WebFile)
    (off size : Nat) : List Nat × List (String × Int × Int) :=
  let start : Int := off
  let last : Int := (off : Int) + size - 1
  ((srv f.url start last).content, [(f.url, start, last)])

/-- Outcome of a bridge operation: a value, a `pyfuse3.FUSEError`
errno, or an uncaught Python exception escaping the handler
(`IndexError` from `tempofs.find`). -/
inductive FsOutcome (α : Type) where
  | ok (a : α)
  | fuseError (errno : Nat)
  | uncaughtIndexError
deriving DecidableEq, Repr

/-- `errno.ENOENT`. -/
def ENOENT : Nat := 2

/-- `errno.EACCES`. -/
def EACCES : Nat := 13

/-- `tempofs.find(inode)` (src/tempofs.py lines 77-81): first file
with matching inode, else `IndexError` (modelled as `none`). -/
def tempofsFind (files : List WebFile) (inode : Nat) : Option WebFile :=
  files.find? fun f => f.inode = inode

/-- `tempofs.getattr` (src/tempofs.py lines 83-100): root directory
attributes for the root inode; otherwise the matching file's
attributes with uid/gid/ino overridden; ENOENT when no file
matches. -/
def tempofsGetattr (hd : String → HeadResponse) (uid gid : Nat)
    (files : List WebFile) (inode : Nat) : FsOutcome EntryAttributes :=
  if inode = ROOT_INODE then
    .ok { st_ino := inode
          st_mode := S_IFDIR ||| 0o755
          st_size := 0
          st_ctime_ns := 0
          st_atime_ns := 0
          st_mtime_ns := 0
          st_uid := uid
          st_gid := gid }
  else
    match tempofsFind files inode with
    | some f =>
      .ok { webfileGetattr hd f with st_uid := uid, st_gid := gid,
                                     st_ino := inode }
    | none => .fuseError ENOENT

/-- `tempofs.lookup` (src/tempofs.py lines 102-108): ENOENT unless the
parent is the root; under the root, the first file with the name, else
ENOENT. -/
def tempofsLookup (hd : String → HeadResponse) (files : List WebFile)
    (parent : Nat) (name : String) : FsOutcome EntryAttributes :=
  if parent ≠ ROOT_INODE then .fuseError ENOENT
  else
    match files.find? (fun f => f.name = name) with
    | some f => .ok (webfileGetattr hd f)
    | none => .fuseError ENOENT

/-- `tempofs.opendir` (src/tempofs.py lines 110-113). -/
def tempofsOpendir (inode : Nat) : FsOutcome Nat :=
  if inode ≠ ROOT_INODE then .fuseError ENOENT else .ok inode

/-- `tempofs.readdir` (src/tempofs.py lines 115-127), with the handle
already asserted to be the root: `self.files[start_id]` succeeds for
`start_id < len`, emitting that entry's name, fresh attributes and
resume index `start_id + 1`; the `IndexError` past the end becomes
ENOENT. -/
def tempofsReaddir (hd : String → HeadResponse) (files : List WebFile)
    (startId : Nat) : FsOutcome (String × EntryAttributes × Nat) :=
  match files.get? startId with
  | some f => .ok (f.name, webfileGetattr hd f, startId + 1)
  | none => .fuseError ENOENT

/-- Repeatedly invoking `tempofs.readdir` from index `i`, collecting
the emitted names until it fails; `fuel` bounds the recursion and is
irrelevant once it is at least `files.length - i`. -/
def iterDir (hd : String → HeadResponse) (files : List WebFile) :
    Nat → Nat → List String
  | 0, _ => []
  | fuel + 1, i =>
    match tempofsReaddir hd files i with
    | .ok (n, _, next) => n :: iterDir hd files fuel next
    | _ => []

/-- `os.O_WRONLY`. -/
def O_WRONLY : Nat := 1

/-- `os.O_RDWR`. -/
def O_RDWR : Nat := 2

/-- `os.O_TRUNC` (Linux, 0o1000). -/
def O_TRUNC : Nat := 0o1000

/-- `os.O_APPEND` (Linux, 0o2000). -/
def O_APPEND : Nat := 0o2000

/-- The write-intent test in `tempofs.open` (src/tempofs.py lines
130-135): `flags & O_APPEND or flags & O_TRUNC or flags & O_RDWR or
flags & O_WRONLY`. -/
def writeIntent (flags : Nat) : Bool :=
  flags.land O_APPEND ≠ 0 || flags.land O_TRUNC ≠ 0 ||
  flags.land O_RDWR ≠ 0 || flags.land O_WRONLY ≠ 0

/-- `tempofs.open` (src/tempofs.py lines 129-141): EACCES for any
write-intent flags, before any resolution or probing; otherwise
resolve and probe via `getfileinfo`, with `IndexError` caught as
ENOENT.  Besides the outcome, returns the urls HEAD-probed during the
call (so that "no probe is issued" is statable). -/
def tempofsOpen (hd : String → HeadResponse) (files : List WebFile)
    (inode flags : Nat) : FsOutcome (FileInfo × List ARWarning) × List String :=
  if writeIntent flags then (.fuseError EACCES, [])
  else
    match tempofsFind files inode with
    | some f => (.ok (webfileGetfileinfo hd f), [f.url])
    | none => (.fuseError ENOENT, [])

/-- `tempofs.read` (src/tempofs.py lines 143-145):
`self.find(fh).read(off, size)` with NO try/except around `find` — an
unresolvable handle lets `IndexError` escape the handler (unlike
`open`, which catches it as ENOENT).  Also returns the ranged requests
issued. -/
def tempofsRead (srv : String → Int → Int → Response)
    (files : List WebFile) (fh off size : Nat) :
    FsOutcome (List Nat) × List (String × Int × Int) :=
  match tempofsFind files fh with
  | some f =>
    let r := webfileRead srv f off size
    (.ok r.1, r.2)
  | none => (.uncaughtIndexError, [])

/-!  Helper lemmas about the stream against the well-behaved server. -/

/-- The well-behaved server never answers with an HTTP error status. -/
theorem Resource.server_not_error (r : Resource) (s l : Int) :
    (r.server s l).isHTTPError = false := by
  simp [Resource.server, Response.isHTTPError]

/-- `readinto` at or past EOF: empty, cursor unchanged, no request. -/
theorem readinto_eof (size : Nat) (srv : Int → Int → Response)
    (pos : Int) (bufLen : Nat) (h : (size : Int) ≤ pos) :
    HTTPRangeFile.readinto size srv pos bufLen = (.ok ([], pos), []) := by
  simp [HTTPRangeFile.readinto, h]

/-- `readinto` before EOF against the well-behaved server: one request
for `pos .. min (pos+bufLen-1) (size-1)`, returning exactly the bytes
of that range and advancing the cursor by their count. -/
theorem readinto_server_ok (r : Resource) (pos : Int) (bufLen : Nat)
    (h0 : 0 ≤ pos) (h : pos < (r.size : Int)) :
    HTTPRangeFile.readinto r.size r.server pos bufLen =
      (.ok ((r.content.drop pos.toNat).take (min bufLen (r.size - pos.toNat)),
            pos + min bufLen (r.size - pos.toNat)),
       [(pos, min (pos + bufLen - 1) ((r.size : Int) - 1))]) := by
  have hns : ¬ ((r.size : Int) ≤ pos) := by omega
  have hk : (min (pos + bufLen - 1) ((r.size : Int) - 1) + 1 - pos).toNat
      = min bufLen (r.size - pos.toNat) := by omega
  have hlen : ((r.content.drop pos.toNat).take
      (min bufLen (r.size - pos.toNat))).length
      = min bufLen (r.size - pos.toNat) := by
    have hdlen : (r.content.drop pos.toNat).length = r.size - pos.toNat := by
      simp [Resource.size]
    rw [List.length_take, hdlen]
    omega
  simp only [HTTPRangeFile.readinto, if_neg hns, Resource.server_not_error,
    Bool.false_eq_true, if_neg (Bool.false_ne_true), Resource.server,
    Resource.rangeBody, hk]
  rw [hlen]
  simp [Response.isHTTPError]

/-- `read(0)`: empty result, cursor unchanged, no request. -/
theorem read_zero (size : Nat) (srv : Int → Int → Response) (pos : Int) :
    HTTPRangeFile.read size srv pos 0 = (.ok ([], pos), []) := by
  simp [HTTPRangeFile.read]

/-- `read(n)` with `n > 0` at or past EOF: empty result, cursor
unchanged, no request. -/
theorem read_bounded_eof (size : Nat) (srv : Int → Int → Response)
    (pos : Int) (n : Int) (hn : 0 < n) (h : (size : Int) ≤ pos) :
    HTTPRangeFile.read size srv pos n = (.ok ([], pos), []) := by
  have h1 : ¬ n < 0 := by omega
  have h2 : ¬ n = 0 := by omega
  simp only [HTTPRangeFile.read, if_neg h1, if_neg h2,
    readinto_eof size srv pos n.toNat h]
  simp [hn]

/-- `read(n)` with `n > 0` before EOF against the well-behaved server:
one request for `pos .. min (pos+n-1) (size-1)`, returning exactly the
bytes of that range (`min n (size-pos)` of them) and advancing the
cursor by their count. -/
theorem read_bounded_ok (r : Resource) (pos : Int) (n : Int)
    (h0 : 0 ≤ pos) (hn : 0 < n) (h : pos < (r.size : Int)) :
    HTTPRangeFile.read r.size r.server pos n =
      (.ok ((r.content.drop pos.toNat).take (min n.toNat (r.size - pos.toNat)),
            pos + min n.toNat (r.size - pos.toNat)),
       [(pos, min (pos + n - 1) ((r.size : Int) - 1))]) := by
  have h1 : ¬ n < 0 := by omega
  have h2 : ¬ n = 0 := by omega
  have hcast : ((n.toNat : Nat) : Int) = n := by omega
  simp only [HTTPRangeFile.read, if_neg h1, if_neg h2,
    readinto_server_ok r pos n.toNat h0 h, hcast]
  have hdlen : (r.content.drop pos.toNat).length = r.size - pos.toNat := by
    simp [Resource.size]
  have hlen : ((r.content.drop pos.toNat).take
      (min n.toNat (r.size - pos.toNat))).length
      = min n.toNat (r.size - pos.toNat) := by
    rw [List.length_take, hdlen]; omega
  by_cases hshort :
      ((min n.toNat (r.size - pos.toNat) : Nat) : Int) < n
  · rw [hlen, if_pos hshort]
    rw [List.take_append_of_le_length (by rw [hlen])]
    rw [List.take_of_length_le (by rw [hlen])]
  · rw [hlen, if_neg hshort]
    have hfull : min n.toNat (r.size - pos.toNat) = n.toNat := by omega
    have hrep : List.drop n.toNat (List.replicate n.toNat (0 : Nat)) = [] := by
      simp
    rw [hfull, hrep, List.append_nil]

/-- `read(n)` with `n < 0` at or past EOF: empty result, cursor
unchanged, no request. -/
theorem read_unbounded_eof (size : Nat) (srv : Int → Int → Response)
    (pos : Int) (n : Int) (hn : n < 0) (h : (size : Int) ≤ pos) :
    HTTPRangeFile.read size srv pos n = (.ok ([], pos), []) := by
  simp [HTTPRangeFile.read, hn, h]

/-- `read(n)` with `n < 0` before EOF against the well-behaved server:
one request for `pos .. size-1`, returning everything from the cursor
to the end and advancing the cursor to the end. -/
theorem read_unbounded_ok (r : Resource) (pos : Int) (n : Int)
    (h0 : 0 ≤ pos) (hn : n < 0) (h : pos < (r.size : Int)) :
    HTTPRangeFile.read r.size r.server pos n =
      (.ok (r.content.drop pos.toNat, pos + (r.size - pos.toNat : Nat)),
       [(pos, (r.size : Int) - 1)]) := by
  have hns : ¬ ((r.size : Int) ≤ pos) := by omega
  have hk : (((r.size : Int) - 1) + 1 - pos).toNat = r.size - pos.toNat := by
    omega
  have hdlen : (r.content.drop pos.toNat).length = r.size - pos.toNat := by
    simp [Resource.size]
  simp only [HTTPRangeFile.read, if_pos hn, if_neg hns, Resource.server,
    Resource.rangeBody, hk, Response.isHTTPError]
  rw [List.take_of_length_le (by omega), hdlen]
  simp

/-- A read never moves the cursor backwards. -/
theorem stepPos_read_le (r : Resource) (pos : Int) (n : Int)
    (h0 : 0 ≤ pos) : pos ≤ stepPos r pos (.readOp n) := by
  simp only [stepPos]
  rcases lt_trichotomy n 0 with hn | hn | hn
  · rcases le_or_lt (r.size : Int) pos with h | h
    · rw [read_unbounded_eof _ _ _ _ hn h]
    · rw [read_unbounded_ok r pos n h0 hn h]
      simp
  · subst hn
    rw [read_zero]
  · rcases le_or_lt (r.size : Int) pos with h | h
    · rw [read_bounded_eof _ _ _ _ hn h]
    · rw [read_bounded_ok r pos n h0 hn h]
      simp

/-- A seek lands at a nonnegative position or leaves the cursor
unchanged. -/
theorem stepPos_seek_nonneg (r : Resource) (pos offset : Int)
    (whence : Nat) (h0 : 0 ≤ pos) :
    0 ≤ stepPos r pos (.seekOp offset whence) := by
  simp only [stepPos, HTTPRangeFile.seek]
  by_cases hw0 : whence = 0
  · simp only [hw0, if_pos rfl]
    by_cases hneg : offset < 0 <;> simp [hneg] <;> omega
  · by_cases hw1 : whence = 1
    · simp only [hw0, hw1, if_neg, if_pos rfl, reduceIte]
      by_cases hneg : pos + offset < 0 <;> simp [hneg] <;> omega
    · by_cases hw2 : whence = 2
      · simp only [hw0, hw1, hw2, reduceIte]
        by_cases hneg : (r.size : Int) + offset < 0 <;> simp [hneg] <;> omega
      · simp [hw0, hw1, hw2, h0]

/-- Every stream operation preserves nonnegativity of the cursor. -/
theorem stepPos_nonneg (r : Resource) (pos : Int) (op : StreamOp)
    (h0 : 0 ≤ pos) : 0 ≤ stepPos r pos op := by
  cases op with
  | readOp n => exact le_trans h0 (stepPos_read_le r pos n h0)
  | seekOp offset whence => exact stepPos_seek_nonneg r pos offset whence h0

/-- The cursor stays nonnegative along any operation sequence from any
nonnegative start. -/
theorem foldl_stepPos_nonneg (r : Resource) (ops : List StreamOp) :
    ∀ pos : Int, 0 ≤ pos → 0 ≤ ops.foldl (stepPos r) pos := by
  induction ops with
  | nil => intro pos h; simpa using h
  | cons op rest ih =>
    intro pos h
    rw [List.foldl_cons]
    exact ih _ (stepPos_nonneg r pos op h)

/-- A successful bounded read returns at most `n` bytes and at most
the bytes remaining between the cursor and the size. -/
theorem read_ok_length_le (r : Resource) (pos n : Int) (d : List Nat)
    (p2 : Int) (h0 : 0 ≤ pos) (hn : 0 < n)
    (h : (HTTPRangeFile.read r.size r.server pos n).1 = .ok (d, p2)) :
    d.length ≤ n.toNat ∧ d.length ≤ r.size - pos.toNat := by
  rcases le_or_lt (r.size : Int) pos with hle | hlt
  · rw [read_bounded_eof _ _ _ _ hn hle] at h
    simp only [Except.ok.injEq, Prod.mk.injEq] at h
    simp [← h.1]
  · rw [read_bounded_ok r pos n h0 hn hlt] at h
    simp only [Except.ok.injEq, Prod.mk.injEq] at h
    have hdlen : (r.content.drop pos.toNat).length = r.size - pos.toNat := by
      simp [Resource.size]
    rw [← h.1, List.length_take, hdlen]
    omega

/-- Iterating `tempofs.readdir` from index `i` with enough fuel lists
exactly the names of the entries from `i` on, in order. -/
theorem iterDir_all (hd : String → HeadResponse) (files : List WebFile) :
    ∀ fuel i, files.length - i ≤ fuel →
      iterDir hd files fuel i = (files.drop i).map (fun f => f.name) := by
  intro fuel
  induction fuel with
  | zero =>
    intro i h
    have hle : files.length ≤ i := by omega
    simp [iterDir, List.drop_eq_nil_of_le hle]
  | succ m ih =>
    intro i h
    by_cases hi : i < files.length
    · have hdrop : files.drop i = files.get ⟨i, hi⟩ :: files.drop (i + 1) :=
        List.drop_eq_getElem_cons hi
      simp only [iterDir, tempofsReaddir, List.get?_eq_getElem?,
        List.getElem?_eq_getElem hi]
      rw [ih (i + 1) (by omega), hdrop]
      simp only [List.map_cons, List.map_drop, List.get_eq_getElem]
    · have hle : files.length ≤ i := by omega
      simp [iterDir, tempofsReaddir, List.getElem?_eq_none hle,
        List.drop_eq_nil_of_le hle]

/-!  The claims. -/

/-- C7: `seek(offset, whence)` computes the new absolute position as
`offset` for whence = 0 (start), `pos + offset` for whence = 1
(current) and `size + offset` for whence = 2 (end); it fails with the
negative-seek error exactly when the computed position is negative,
fails with the invalid-whence error for any other whence value, and
every successful seek — including to positions beyond the size —
yields a nonnegative position that `tell()` immediately afterwards
returns. -/
theorem seek_whence_semantics (r : Resource) (pos offset : Int)
    (whence : Nat) :
    (whence = 0 → HTTPRangeFile.seek r.size pos offset whence
        = if offset < 0 then .error .negativeSeek else .ok offset)
  ∧ (whence = 1 → HTTPRangeFile.seek r.size pos offset whence
        = if pos + offset < 0 then .error .negativeSeek
          else .ok (pos + offset))
  ∧ (whence = 2 → HTTPRangeFile.seek r.size pos offset whence
        = if (r.size : Int) + offset < 0 then .error .negativeSeek
          else .ok ((r.size : Int) + offset))
  ∧ (whence ≠ 0 → whence ≠ 1 → whence ≠ 2 →
      HTTPRangeFile.seek r.size pos offset whence = .error .invalidWhence)
  ∧ (∀ np : Int, HTTPRangeFile.seek r.size pos offset whence = .ok np →
      0 ≤ np ∧
      HTTPRangeFile.tell (stepPos r pos (.seekOp offset whence)) = np) := by
  refine ⟨?_, ?_, ?_, ?_, ?_⟩
  · intro h; simp [HTTPRangeFile.seek, h]
  · intro h; simp [HTTPRangeFile.seek, h]
  · intro h; simp [HTTPRangeFile.seek, h]
  · intro h0 h1 h2; simp [HTTPRangeFile.seek, h0, h1, h2]
  · intro np h
    constructor
    · simp only [HTTPRangeFile.seek] at h
      repeat' split at h
      all_goals simp_all
    · simp [stepPos, HTTPRangeFile.tell, h]

/-- Witness for C7 at resource [0, 1, 2], seek(7, start) from 0. -/
theorem seek_whence_semantics_witness :
    (HTTPRangeFile.seek (Resource.size ⟨[0, 1, 2]⟩) 0 7 0
        = if (7 : Int) < 0 then .error .negativeSeek else .ok 7)
  ∧ (0 ≤ (7 : Int)
      ∧ HTTPRangeFile.tell (stepPos ⟨[0, 1, 2]⟩ 0 (.seekOp 7 0)) = 7) :=
  ⟨(seek_whence_semantics ⟨[0, 1, 2]⟩ 0 7 0).1 rfl,
   (seek_whence_semantics ⟨[0, 1, 2]⟩ 0 7 0).2.2.2.2 7 rfl⟩

/-- C10: a failed seek (negative computed position or unrecognized
whence) leaves the cursor unchanged, so `tell()` after the failed seek
equals `tell()` before it. -/
theorem seek_failure_preserves_position (r : Resource) (pos offset : Int)
    (whence : Nat) (e : SeekErr)
    (h : HTTPRangeFile.seek r.size pos offset whence = .error e) :
    HTTPRangeFile.tell (stepPos r pos (.seekOp offset whence))
      = HTTPRangeFile.tell pos := by
  simp [stepPos, HTTPRangeFile.tell, h]

/-- Witness for C10: a negative seek from position 5 leaves the cursor
at 5. -/
theorem seek_failure_preserves_position_witness :
    HTTPRangeFile.tell (stepPos ⟨[0, 1, 2]⟩ 5 (.seekOp (-10) 0))
      = HTTPRangeFile.tell 5 :=
  seek_failure_preserves_position ⟨[0, 1, 2]⟩ 5 (-10) 0 .negativeSeek rfl

/-- C4: for every identifier and every flags value with a write-intent
bit (O_APPEND, O_TRUNC, O_RDWR or O_WRONLY), `open` fails with EACCES,
and no file info is constructed and no probe request is issued. -/
theorem open_write_intent_eacces (hd : String → HeadResponse)
    (files : List WebFile) (inode flags : Nat)
    (h : flags.land O_APPEND ≠ 0 ∨ flags.land O_TRUNC ≠ 0 ∨
         flags.land O_RDWR ≠ 0 ∨ flags.land O_WRONLY ≠ 0) :
    tempofsOpen hd files inode flags = (.fuseError EACCES, []) := by
  have hw : writeIntent flags = true := by
    unfold writeIntent
    rcases h with h | h | h | h <;> simp [h]
  simp [tempofsOpen, hw]

/-- Witness for C4: flags O_WRONLY. -/
theorem open_write_intent_eacces_witness :
    tempofsOpen (fun _ => ⟨0, none, none⟩) [] 2 1
      = (.fuseError EACCES, []) :=
  open_write_intent_eacces (fun _ => ⟨0, none, none⟩) [] 2 1 (by decide)

/-- C8: for every resolvable handle, `read(handle, off, size)` issues
exactly one ranged GET for `bytes=off-(off+size-1)` (inclusive end) on
the resolved file's url and returns exactly the response body — no
retry, padding or truncation. -/
theorem bridge_read_single_request (srv : String → Int → Int → Response)
    (files : List WebFile) (fh off size : Nat) (f : WebFile)
    (h : tempofsFind files fh = some f) :
    tempofsRead srv files fh off size =
      (.ok (srv f.url off ((off : Int) + size - 1)).content,
       [(f.url, (off : Int), (off : Int) + size - 1)]) := by
  simp [tempofsRead, h, webfileRead]

/-- Witness for C8: registry {doc → u} (inode 2), read(2, 10, 20). -/
theorem bridge_read_single_request_witness :
    tempofsRead (fun _ _ _ => ⟨206, [7]⟩) [⟨2, "doc", "u"⟩] 2 10 20 =
      (.ok [7], [("u", 10, 29)]) := by
  have h := bridge_read_single_request (fun _ _ _ => ⟨206, [7]⟩)
    [⟨2, "doc", "u"⟩] 2 10 20 ⟨2, "doc", "u"⟩ rfl
  exact h.trans (by norm_num)

/-- C3 (code bug in `tempofs.read`): with registry {doc → u}
(inode 2), an unresolvable identifier yields ENOENT from getattr,
lookup (non-root parent or unknown name) and read-only open, but
`tempofs.read` does not catch the IndexError from `find`, so the error
escaping the handler is not the no-such-entry condition. -/
theorem resolution_errors_read_uncaught :
    (tempofsGetattr (fun _ => ⟨0, none, none⟩) 0 0 (mkFiles [("doc", "u")]) 99
        = .fuseError ENOENT)
  ∧ (tempofsLookup (fun _ => ⟨0, none, none⟩) (mkFiles [("doc", "u")]) 2 "doc"
        = .fuseError ENOENT)
  ∧ (tempofsLookup (fun _ => ⟨0, none, none⟩) (mkFiles [("doc", "u")]) 1 "nope"
        = .fuseError ENOENT)
  ∧ ((tempofsOpen (fun _ => ⟨0, none, none⟩) (mkFiles [("doc", "u")]) 99 0).1
        = .fuseError ENOENT)
  ∧ ((tempofsRead (fun _ _ _ => ⟨206, []⟩) (mkFiles [("doc", "u")]) 99 0 4096).1
        = .uncaughtIndexError)
  ∧ (FsOutcome.uncaughtIndexError
        ≠ (FsOutcome.fuseError ENOENT : FsOutcome (List Nat))) := by
  refine ⟨rfl, rfl, rfl, rfl, rfl, by decide⟩

/-- C5: `readdir` on the root emits exactly one entry per call — the
entry at `startIndex` in configuration order with its name, freshly
computed attributes and resume index `startIndex + 1`; any
`startIndex ≥ count` fails with ENOENT; iterating from 0 enumerates
every configured name exactly once, in order. -/
theorem readdir_enumerates (hd : String → HeadResponse)
    (files : List WebFile) (i : Nat) :
    (∀ h : i < files.length,
        tempofsReaddir hd files i
          = .ok ((files.get ⟨i, h⟩).name,
                 webfileGetattr hd (files.get ⟨i, h⟩), i + 1))
  ∧ (files.length ≤ i → tempofsReaddir hd files i = .fuseError ENOENT)
  ∧ (∀ fuel, files.length ≤ fuel →
        iterDir hd files fuel 0 = files.map (fun f => f.name)) := by
  refine ⟨?_, ?_, ?_⟩
  · intro h
    simp [tempofsReaddir, List.getElem?_eq_getElem h]
  · intro h
    simp [tempofsReaddir, List.getElem?_eq_none h]
  · intro fuel hf
    have h := iterDir_all hd files fuel 0 (by omega)
    simpa using h

/-- Witness for C5 at registry {a → u1, b → u2}. -/
theorem readdir_enumerates_witness :
    (tempofsReaddir (fun _ => ⟨3, none, some "bytes"⟩)
        (mkFiles [("a", "u1"), ("b", "u2")]) 2 = .fuseError ENOENT)
  ∧ iterDir (fun _ => ⟨3, none, some "bytes"⟩)
        (mkFiles [("a", "u1"), ("b", "u2")]) 2 0 = ["a", "b"] := by
  refine ⟨(readdir_enumerates _ _ 2).2.1 (by simp [mkFiles]), ?_⟩
  have h := (readdir_enumerates (fun _ => ⟨3, none, some "bytes"⟩)
      (mkFiles [("a", "u1"), ("b", "u2")]) 0).2.2 2 (by simp [mkFiles])
  rw [h]
  rfl

/-- C6 is false as stated: the known value "none" is NOT handled
silently — both the stream's `is_seekable` and the bridge's
`getfileinfo` log a warning for it (the not-seekable warning). -/
theorem accept_ranges_silent_counterexample :
    ((HTTPRangeFile.is_seekable (some "none")).2 ≠ [])
  ∧ ((webfileGetfileinfo (fun _ => ⟨0, none, some "none"⟩)
        ⟨2, "doc", "u"⟩).2 ≠ []) := by
  constructor <;> decide

/-- C6 (amended): the seekable flag is true iff Accept-Ranges is
exactly "bytes", and the bridge's nonseekable indicator is true iff it
is not exactly "bytes" (including when the header is absent); but no
non-"bytes" value is handled silently: every one produces the
not-seekable warning, and the unknown-value warning fires exactly for
values outside the known list none/false/False/0/no/No — with the
header absent, the stream (whose default is "none") does not fire it
while the bridge (whose `headers.get` default is the Python `True`
sentinel) does. -/
theorem accept_ranges_semantics (ar : Option String)
    (hd : String → HeadResponse) (f : WebFile)
    (har : (hd f.url).acceptRanges = ar) :
    ((HTTPRangeFile.is_seekable ar).1 = true ↔ ar = some "bytes")
  ∧ (ARWarning.notSeekable ∈ (HTTPRangeFile.is_seekable ar).2 ↔
      ar ≠ some "bytes")
  ∧ (ARWarning.unknownValue ∈ (HTTPRangeFile.is_seekable ar).2 ↔
      (ar ≠ some "bytes" ∧ ar.getD "none" ∉ knownNotSeekable))
  ∧ ((webfileGetfileinfo hd f).1.nonseekable = true ↔ ar ≠ some "bytes")
  ∧ (ARWarning.notSeekable ∈ (webfileGetfileinfo hd f).2 ↔
      ar ≠ some "bytes")
  ∧ (ARWarning.unknownValue ∈ (webfileGetfileinfo hd f).2 ↔
      (ar ≠ some "bytes" ∧ ∀ s, ar = some s → s ∉ knownNotSeekable)) := by
  rcases ar with _ | s
  · simp [HTTPRangeFile.is_seekable, webfileGetfileinfo, har,
      knownNotSeekable]
  · by_cases hb : s = "bytes"
    · subst hb
      simp [HTTPRangeFile.is_seekable, webfileGetfileinfo, har]
    · by_cases hk : s ∈ knownNotSeekable
      · simp [HTTPRangeFile.is_seekable, webfileGetfileinfo, har, hb, hk]
      · simp [HTTPRangeFile.is_seekable, webfileGetfileinfo, har, hb, hk]

/-- Witness for C6 (amended): "bytes" is seekable for the stream;
"none" is nonseekable for the bridge. -/
theorem accept_ranges_semantics_witness :
    ((HTTPRangeFile.is_seekable (some "bytes")).1 = true)
  ∧ ((webfileGetfileinfo (fun _ => ⟨0, none, some "none"⟩)
        ⟨2, "doc", "u"⟩).1.nonseekable = true) := by
  constructor
  · exact (accept_ranges_semantics (some "bytes")
      (fun _ => ⟨0, none, some "bytes"⟩) ⟨2, "doc", "u"⟩ rfl).1.mpr rfl
  · exact (accept_ranges_semantics (some "none")
      (fun _ => ⟨0, none, some "none"⟩) ⟨2, "doc", "u"⟩ rfl).2.2.2.1.mpr
      (by decide)

/-- C2 is false as stated: a 404 response to the bridge's ranged read
is not surfaced as a failure — the call succeeds and the failing
response's body is returned to the caller as file data. -/
theorem bridge_read_error_body_counterexample :
    tempofsRead (fun _ _ _ => ⟨404, [78, 111]⟩) [⟨2, "doc", "u"⟩] 2 0 4
      = (.ok [78, 111], [("u", 0, 3)]) := by
  norm_num [tempofsRead, tempofsFind, webfileRead]

/-- C2 (amended): the stream's readinto/read surface a non-success
HTTP status (4xx/5xx) on the ranged fetch as a failure of the call and
never return the failing body as data; the bridge's
`read(handle, offset, size)` performs no status check at all and
returns the response body regardless of its status. -/
theorem http_error_propagation (size : Nat) (srv : Int → Int → Response)
    (pos : Int) (bufLen : Nat) (n : Int)
    (srv2 : String → Int → Int → Response) (f : WebFile) (off sz : Nat) :
    (pos < (size : Int) →
      (srv pos (min (pos + bufLen - 1) ((size : Int) - 1))).isHTTPError
          = true →
      HTTPRangeFile.readinto size srv pos bufLen
        = (.error (srv pos (min (pos + bufLen - 1)
              ((size : Int) - 1))).status,
           [(pos, min (pos + bufLen - 1) ((size : Int) - 1))]))
  ∧ (pos < (size : Int) → 0 < n →
      (srv pos (min (pos + n - 1) ((size : Int) - 1))).isHTTPError
          = true →
      (HTTPRangeFile.read size srv pos n).1
        = .error (srv pos (min (pos + n - 1) ((size : Int) - 1))).status)
  ∧ (pos < (size : Int) → n < 0 →
      (srv pos ((size : Int) - 1)).isHTTPError = true →
      (HTTPRangeFile.read size srv pos n).1
        = .error (srv pos ((size : Int) - 1)).status)
  ∧ ((webfileRead srv2 f off sz).1
        = (srv2 f.url off ((off : Int) + sz - 1)).content) := by
  refine ⟨?_, ?_, ?_, rfl⟩
  · intro hlt he
    simp [HTTPRangeFile.readinto, not_le.mpr hlt, he]
  · intro hlt hn he
    have hcast : ((n.toNat : Nat) : Int) = n := by omega
    have h1 : ¬ n < 0 := by omega
    have h2 : ¬ n = 0 := by omega
    have hri : HTTPRangeFile.readinto size srv pos n.toNat
        = (.error (srv pos (min (pos + n - 1) ((size : Int) - 1))).status,
           [(pos, min (pos + n - 1) ((size : Int) - 1))]) := by
      simp [HTTPRangeFile.readinto, not_le.mpr hlt, hcast, he]
    simp [HTTPRangeFile.read, h1, h2, hri]
  · intro hlt hn he
    simp [HTTPRangeFile.read, hn, not_le.mpr hlt, he]

/-- Witness for C2 (amended): a 500 response makes the stream's
readinto fail with status 500. -/
theorem http_error_propagation_witness :
    HTTPRangeFile.readinto 10 (fun _ _ => ⟨500, [1, 2, 3]⟩) 0 4
      = (.error 500, [(0, 3)]) := by
  have h := (http_error_propagation 10 (fun _ _ => ⟨500, [1, 2, 3]⟩)
      0 4 1 (fun _ _ _ => ⟨500, []⟩) ⟨2, "doc", "u"⟩ 0 0).1
      (by norm_num) (by decide)
  exact h.trans (by norm_num)

/-- C1: for a stream over a resource of size s at position p —
read(n) with n > 0 returns empty with no request when p ≥ s, and
otherwise issues exactly one ranged request for bytes p through
min(p+n-1, s-1), returns exactly those bytes (min(n, s-p) of them,
fewer than n only when the read ends at EOF) and advances the cursor
by exactly their count; read(0) returns empty immediately with no
request; read with negative n returns everything from p to the end in
one request (empty with no request when p ≥ s) and advances the cursor
by the bytes returned. -/
theorem stream_read_semantics (r : Resource) (p : Nat) (n : Int) :
    (0 < n → r.size ≤ p →
        HTTPRangeFile.read r.size r.server p n = (.ok ([], p), []))
  ∧ (0 < n → p < r.size →
        HTTPRangeFile.read r.size r.server p n
          = (.ok ((r.content.drop p).take (min n.toNat (r.size - p)),
                  (p : Int) + (min n.toNat (r.size - p) : Nat)),
             [((p : Int), min ((p : Int) + n - 1) ((r.size : Int) - 1))])
        ∧ ((r.content.drop p).take (min n.toNat (r.size - p))).length
            = min n.toNat (r.size - p)
        ∧ (min n.toNat (r.size - p) < n.toNat →
            p + min n.toNat (r.size - p) = r.size))
  ∧ (HTTPRangeFile.read r.size r.server p 0 = (.ok ([], p), []))
  ∧ (n < 0 → p < r.size →
        HTTPRangeFile.read r.size r.server p n
          = (.ok (r.content.drop p, (p : Int) + (r.size - p : Nat)),
             [((p : Int), (r.size : Int) - 1)])
        ∧ (r.content.drop p).length = r.size - p)
  ∧ (n < 0 → r.size ≤ p →
        HTTPRangeFile.read r.size r.server p n = (.ok ([], p), [])) := by
  have h0 : (0 : Int) ≤ (p : Int) := Int.natCast_nonneg p
  refine ⟨?_, ?_, ?_, ?_, ?_⟩
  · intro hn hle
    exact read_bounded_eof _ _ _ _ hn (by exact_mod_cast hle)
  · intro hn hlt
    have h := read_bounded_ok r p n h0 hn (by exact_mod_cast hlt)
    rw [Int.toNat_natCast] at h
    refine ⟨h, ?_, ?_⟩
    · have hdlen : (r.content.drop p).length = r.size - p := by
        simp [Resource.size]
      rw [List.length_take, hdlen]
      omega
    · intro hshort
      omega
  · exact read_zero _ _ _
  · intro hn hlt
    have h := read_unbounded_ok r p n h0 hn (by exact_mod_cast hlt)
    rw [Int.toNat_natCast] at h
    exact ⟨h, by simp [Resource.size]⟩
  · intro hn hle
    exact read_unbounded_eof _ _ _ _ hn (by exact_mod_cast hle)

/-- Witness for C1 at resource [10, 20, 30, 40, 50], position 1,
read(2). -/
theorem stream_read_semantics_witness :
    HTTPRangeFile.read (Resource.size ⟨[10, 20, 30, 40, 50]⟩)
        (Resource.server ⟨[10, 20, 30, 40, 50]⟩) ((1 : Nat) : Int) 2
      = (.ok ([20, 30], 3), [(1, 2)]) := by
  have h := ((stream_read_semantics ⟨[10, 20, 30, 40, 50]⟩ 1 2).2.1
      (by norm_num) (by simp [Resource.size])).1
  exact h.trans (by rfl)

/-- C9: the cursor starts at 0 and stays nonnegative under every
sequence of stream operations, and every successful bounded read(n)
returns at most n bytes and at most the bytes remaining between the
cursor and the size. -/
theorem stream_invariants (r : Resource) :
    (∀ ops : List StreamOp, 0 ≤ runOps r ops)
  ∧ (∀ (pos n : Int) (d : List Nat) (p2 : Int), 0 ≤ pos → 0 < n →
        (HTTPRangeFile.read r.size r.server pos n).1 = .ok (d, p2) →
        d.length ≤ n.toNat ∧ d.length ≤ r.size - pos.toNat) := by
  constructor
  · intro ops
    simpa [runOps] using foldl_stepPos_nonneg r ops 0 le_rfl
  · intro pos n d p2 h0 hn h
    exact read_ok_length_le r pos n d p2 h0 hn h

/-- Witness for C9: resource [1, 2, 3], ops seek(2, start) then
read(5); and a read(2) from 0 returning 2 bytes. -/
theorem stream_invariants_witness :
    (0 ≤ runOps ⟨[1, 2, 3]⟩ [.seekOp 2 0, .readOp 5])
  ∧ ([1, 2].length ≤ (2 : Int).toNat
      ∧ [1, 2].length ≤ Resource.size ⟨[1, 2, 3]⟩ - (0 : Int).toNat) := by
  constructor
  · exact (stream_invariants ⟨[1, 2, 3]⟩).1 _
  · exact (stream_invariants ⟨[1, 2, 3]⟩).2 0 2 [1, 2] 2 (by norm_num)
      (by norm_num) rfl

end Tempofs
